import Mathlib

/-!
Verification of the `ensemble/async` module of microcks-testcontainers-go
(`src/ensemble/async/async.go`), a configuration/glue layer over the
testcontainers runtime.  Go strings are modelled as Lean `String`, Go maps
as association lists with overwrite-on-set semantics, Go `(value, error)`
multi-returns as pairs with an `Option` error component, and the external
container runtime (the `testcontainers.Container` interface and the
`GenericContainer` start call) as abstract function-valued parameters.
-/

set_option autoImplicit false

namespace MicrocksAsync

/-- Go `error` values, modelled as their message string. -/
abbrev GoError := String

/-- Models `nat.Port` as returned by `Container.MappedPort`; the `Port` field
is the result of Go's `port.Port()` (the numeric part of the mapped port). -/
structure NatPort where
  Port : String
deriving DecidableEq

/-- Models the external `testcontainers.Container` interface as far as this
module uses it: `Host(ctx)` and `MappedPort(ctx, port)`, each of which may
fail with a runtime error.  The `ctx` parameter carries no information in
this model. -/
structure Container where
  Host : Except GoError String
  MappedPort : String → Except GoError NatPort

/-- Models `wait.ForLog`: a log-line readiness condition. -/
structure WaitStrategy where
  logLine : String
deriving DecidableEq

/-- Models the `wait.ForLog(...)` constructor. -/
def forLog (s : String) : WaitStrategy := ⟨s⟩

/-- `DefaultImage` constant from `async.go`. -/
def DefaultImage : String := "quay.io/microcks/microcks-uber-async-minion:latest"

/-- `DefaultHttpPort` constant from `async.go`. -/
def DefaultHttpPort : String := "8081/tcp"

/-- `DefaultNetworkAlias` constant from `async.go`. -/
def DefaultNetworkAlias : String := "microcks-async-minion"

/-- Models `testcontainers.GenericContainerRequest` (with its embedded
`ContainerRequest` flattened) as far as this module reads or writes it.
Go `nil`-able maps are modelled as `Option` association lists. -/
structure GenericContainerRequest where
  Image : String
  ExposedPorts : List String
  WaitingFor : WaitStrategy
  Env : Option (List (String × String))
  Networks : List String
  NetworkAliases : Option (List (String × List String))
  Started : Bool

/-- Models `testcontainers.ContainerCustomizer` / `CustomizeRequestOption`:
a mutation of the launch request (the customizers in this module never
return a non-nil error, so the error component is dropped). -/
def ContainerCustomizer := GenericContainerRequest → GenericContainerRequest

/-- Models the `for _, opt := range opts { opt.Customize(&req) }` loop:
apply customizers in order to the request. -/
def applyOpts (opts : List ContainerCustomizer) (req : GenericContainerRequest) :
    GenericContainerRequest :=
  opts.foldl (fun r o => o r) req

/-- `ContainerOptions` struct from `async.go`: an ordered list of pending
container customizers. -/
structure ContainerOptions where
  list : List ContainerCustomizer

/-- `ContainerOptions.Add`: appends an option to the list. -/
def ContainerOptions.Add (co : ContainerOptions) (opt : ContainerCustomizer) :
    ContainerOptions :=
  ⟨co.list ++ [opt]⟩

/-- `MicrocksAysncMinionContainer` struct from `async.go` (source spelling
kept): an embedded runtime container handle, the accumulated
`extraProtocols` tag string, and the pending `containerOptions`. -/
structure MicrocksAysncMinionContainer where
  Container : Container
  extraProtocols : String
  containerOptions : ContainerOptions

/-- Go `Option` type from `async.go`: `func(*MicrocksAysncMinionContainer) error`.
The only instance (`WithKafkaConnection`) always returns a nil error, so it
is modelled as a handle transformer. -/
def MinionOption := MicrocksAysncMinionContainer → MicrocksAysncMinionContainer

namespace kafka

/-- Models `kafka.Connection` from
`ensemble/async/connection/kafka`: a value object holding the
bootstrap-server address. -/
structure Connection where
  BootstrapServers : String

end kafka

/-- Association-list write with Go-map semantics: overwrite the binding of
`k` in place if present, otherwise append it. -/
def assocSet {β : Type} : List (String × β) → String → β → List (String × β)
  | [], k, v => [(k, v)]
  | (k', v') :: rest, k, v =>
      if k' = k then (k, v) :: rest else (k', v') :: assocSet rest k v

/-- Association-list read with Go-map semantics: first (unique) binding of
the key, or `none`. -/
def assocGet {β : Type} : List (String × β) → String → Option β
  | [], _ => none
  | (k', v') :: rest, k => if k' = k then some v' else assocGet rest k

/-- Read a key from a possibly-nil Go map (reading a nil map yields the zero
value, i.e. no binding). -/
def envGet (env : Option (List (String × String))) (k : String) : Option String :=
  assocGet (env.getD []) k

/-- Read an alias list from the possibly-nil `NetworkAliases` map. -/
def aliasGet (m : Option (List (String × List String))) (k : String) :
    Option (List String) :=
  assocGet (m.getD []) k

/-- `WithNetwork` from `async.go`: appends a network name to the request's
network list. -/
def WithNetwork (networkName : String) : ContainerCustomizer :=
  fun req => { req with Networks := req.Networks ++ [networkName] }

/-- `WithNetworkAlias` from `async.go`: lazily initializes the
`NetworkAliases` map and sets (overwriting) the alias list of the given
network to the single-element list holding the given alias. -/
def WithNetworkAlias (networkName networkAlias : String) : ContainerCustomizer :=
  fun req =>
    { req with
      NetworkAliases :=
        some (assocSet (req.NetworkAliases.getD []) networkName [networkAlias]) }

/-- `WithEnv` from `async.go`: lazily initializes the `Env` map and sets
(overwriting) the binding of `key` to `value`. -/
def WithEnv (key value : String) : ContainerCustomizer :=
  fun req =>
    { req with Env := some (assocSet (req.Env.getD []) key value) }

/-- List-level prefix test used by the substring search (Go semantics). -/
def listIsPrefix : List Char → List Char → Bool
  | [], _ => true
  | _ :: _, [] => false
  | a :: as, b :: bs => a = b && listIsPrefix as bs

/-- List-level substring search: does `pat` occur as a contiguous infix? -/
def listIsSub (pat : List Char) : List Char → Bool
  | [] => pat.isEmpty
  | s@(_ :: t) => listIsPrefix pat s || listIsSub pat t

/-- Models Go `strings.Contains(s, pat)` (and `strings.Index(s, pat) != -1`). -/
def stringContains (s pat : String) : Bool :=
  listIsSub pat.data s.data

/-- Splits a character list on a separator character; Go `strings.Split`
semantics for a single-character separator (always at least one piece). -/
def splitOnCharList (c : Char) : List Char → List (List Char)
  | [] => [[]]
  | a :: as =>
      match splitOnCharList c as with
      | [] => [[]]
      | h :: t => if a = c then [] :: h :: t else (a :: h) :: t

/-- Models Go `strings.Split(s, sep)` for a single-character separator. -/
def goSplitChar (c : Char) (s : String) : List String :=
  (splitOnCharList c s.data).map (fun l => ⟨l⟩)

/-- Models Go `strings.ReplaceAll(s, " ", "+")`: with a single-character
pattern and replacement this is a character-wise map. -/
def replaceSpaceByPlus (s : String) : String :=
  ⟨s.data.map (fun c => if c = ' ' then '+' else c)⟩

/-- Models the default `GenericContainerRequest` literal that `RunContainer`
builds before applying the caller's customizers: fixed image, one exposed
port, log-line readiness, one environment binding, `Started: true`. -/
def defaultRequest (microcksHostPort : String) : GenericContainerRequest where
  Image := DefaultImage
  ExposedPorts := [DefaultHttpPort]
  WaitingFor := forLog "Profile prod activated"
  Env := some [("MICROCKS_HOST_PORT", microcksHostPort)]
  Networks := []
  NetworkAliases := none
  Started := true

/-- The minion handle `RunContainer` constructs on success
(`&MicrocksAysncMinionContainer{Container: container}`): zero-valued
`extraProtocols` and pending-option list. -/
def freshMinion (container : Container) : MicrocksAysncMinionContainer where
  Container := container
  extraProtocols := ""
  containerOptions := ⟨[]⟩

/-- `RunContainer` from `async.go`.  The external
`testcontainers.GenericContainer` create-and-start call is abstracted as
the parameter `genericContainer`; the Go `(value, error)` return is a pair
with an `Option GoError` component. -/
def RunContainer (genericContainer : GenericContainerRequest → Except GoError Container)
    (microcksHostPort : String) (opts : List ContainerCustomizer) :
    Option MicrocksAysncMinionContainer × Option GoError :=
  let req := applyOpts opts (defaultRequest microcksHostPort)
  match genericContainer req with
  | Except.error err => (none, some err)
  | Except.ok container => (some (freshMinion container), none)

/-- The guarded protocol-tag update performed by `WithKafkaConnection`:
append ",KAFKA" unless it is already contained
(Go `strings.Join([]string{extraProtocols, ",KAFKA"}, "")` with an empty
separator is plain concatenation). -/
def kafkaProtocols (extraProtocols : String) : String :=
  if stringContains extraProtocols ",KAFKA" then extraProtocols
  else extraProtocols ++ ",KAFKA"

/-- `WithKafkaConnection` from `async.go`: update the handle's
`extraProtocols` through the guarded append, then queue the two environment
customizations onto the pending option list (two-phase application). -/
def WithKafkaConnection (connection : kafka.Connection) : MinionOption :=
  fun minion =>
    { minion with
      extraProtocols := kafkaProtocols minion.extraProtocols
      containerOptions :=
        (minion.containerOptions.Add
            (WithEnv "ASYNC_PROTOCOLS" (kafkaProtocols minion.extraProtocols))).Add
          (WithEnv "KAFKA_BOOTSTRAP_SERVER" connection.BootstrapServers) }

/-- `WSMockEndpoint` from `async.go`: resolve host and mapped port (failures
returned verbatim with an empty URL), normalize a "VERB path"-style
operation name to its second space-separated token, and format the
WebSocket URL with spaces of service and version replaced by pluses. -/
def WSMockEndpoint (container : MicrocksAysncMinionContainer)
    (service version operationName : String) : String × Option GoError :=
  match container.Container.Host with
  | Except.error err => ("", some err)
  | Except.ok host =>
      match container.Container.MappedPort DefaultHttpPort with
      | Except.error err => ("", some err)
      | Except.ok port =>
          let operationName :=
            if stringContains operationName " " then
              (goSplitChar ' ' operationName).getD 1 ""
            else operationName
          ("ws://" ++ host ++ ":" ++ port.Port ++ "/api/ws/" ++
              replaceSpaceByPlus service ++ "/" ++ replaceSpaceByPlus version ++
              "/" ++ operationName,
            none)

/-- Spec-side helper for C4: the value of the last `WithEnv` call in the
sequence whose key is `k`, if any. -/
def lastVal : List (String × String) → String → Option String
  | [], _ => none
  | p :: ps, k =>
      match lastVal ps k with
      | some v => some v
      | none => if p.1 = k then some p.2 else none

/-- Spec-side helper for C5: number of (possibly overlapping) occurrence
positions of `pat` in `s`. -/
def occurrences (pat : List Char) : List Char → Nat
  | [] => 0
  | s@(_ :: t) => (if listIsPrefix pat s then 1 else 0) + occurrences pat t

/-- Spec-side helper for C5: apply a handle transformer `n` times. -/
def applyTimes {α : Type} (f : α → α) : Nat → α → α
  | 0, x => x
  | n + 1, x => applyTimes f n (f x)

/-- A concrete running container used to instantiate endpoint claims:
host `localhost`, mapped external port `49213`. -/
def localContainer : Container where
  Host := Except.ok "localhost"
  MappedPort := fun _ => Except.ok ⟨"49213"⟩

/-! ### Helper lemmas -/

theorem assocGet_assocSet {β : Type} (m : List (String × β)) (k' k : String) (v : β) :
    assocGet (assocSet m k' v) k = if k' = k then some v else assocGet m k := by
  induction m with
  | nil => simp [assocSet, assocGet]
  | cons p rest ih =>
      obtain ⟨a, b⟩ := p
      by_cases hak : a = k'
      · subst hak
        simp only [assocSet, if_pos rfl, assocGet]
        by_cases hk : a = k <;> simp [hk]
      · by_cases hkk : k' = k
        · subst hkk
          simp [assocSet, assocGet, hak, ih]
        · simp [assocSet, assocGet, hak, hkk, ih]

theorem envGet_WithEnv (k' v k : String) (req : GenericContainerRequest) :
    envGet ((WithEnv k' v) req).Env k
      = if k' = k then some v else envGet req.Env k := by
  simp [WithEnv, envGet, assocGet_assocSet]

theorem env_WithEnv_isSome (k' v : String) (req : GenericContainerRequest) :
    ((WithEnv k' v) req).Env.isSome = true := rfl

theorem applyOpts_nil (req : GenericContainerRequest) : applyOpts [] req = req := rfl

theorem applyOpts_cons (o : ContainerCustomizer) (l : List ContainerCustomizer)
    (req : GenericContainerRequest) :
    applyOpts (o :: l) req = applyOpts l (o req) := rfl

theorem applyOpts_append (l l' : List ContainerCustomizer) (req : GenericContainerRequest) :
    applyOpts (l ++ l') req = applyOpts l' (applyOpts l req) := by
  induction l generalizing req with
  | nil => rfl
  | cons o t ih => exact ih (o req)

theorem listIsPrefix_refl (l : List Char) : listIsPrefix l l = true := by
  induction l with
  | nil => rfl
  | cons a as ih => simp [listIsPrefix, ih]

theorem listIsSub_append_self (s pat : List Char) : listIsSub pat (s ++ pat) = true := by
  induction s with
  | nil =>
      cases pat with
      | nil => rfl
      | cons a t => simp [listIsSub, listIsPrefix_refl]
  | cons a s' ih => simp [listIsSub, ih]

theorem data_append (s t : String) : (s ++ t).data = s.data ++ t.data := by
  cases s
  cases t
  rfl

theorem stringContains_append_self (s t : String) : stringContains (s ++ t) t = true := by
  unfold stringContains
  rw [data_append]
  exact listIsSub_append_self s.data t.data

theorem contains_kafkaProtocols (s : String) :
    stringContains (kafkaProtocols s) ",KAFKA" = true := by
  unfold kafkaProtocols
  by_cases h : stringContains s ",KAFKA" = true
  · rw [if_pos h]; exact h
  · rw [if_neg h]; exact stringContains_append_self s ",KAFKA"

theorem kafkaProtocols_idem (s : String) :
    kafkaProtocols (kafkaProtocols s) = kafkaProtocols s := by
  have h := contains_kafkaProtocols s
  show (if stringContains (kafkaProtocols s) ",KAFKA" = true then kafkaProtocols s
      else kafkaProtocols s ++ ",KAFKA") = kafkaProtocols s
  rw [if_pos h]

theorem extraProtocols_WithKafkaConnection (conn : kafka.Connection)
    (m : MicrocksAysncMinionContainer) :
    (WithKafkaConnection conn m).extraProtocols = kafkaProtocols m.extraProtocols := rfl

theorem containerOptions_WithKafkaConnection (conn : kafka.Connection)
    (m : MicrocksAysncMinionContainer) :
    (WithKafkaConnection conn m).containerOptions.list
      = m.containerOptions.list
        ++ [WithEnv "ASYNC_PROTOCOLS" (kafkaProtocols m.extraProtocols)]
        ++ [WithEnv "KAFKA_BOOTSTRAP_SERVER" conn.BootstrapServers] := rfl

theorem applyTimes_kafka_stable (conn : kafka.Connection) (n : Nat) :
    ∀ m : MicrocksAysncMinionContainer, m.extraProtocols = ",KAFKA" →
      (applyTimes (WithKafkaConnection conn) n m).extraProtocols = ",KAFKA" := by
  induction n with
  | zero => intro m h; exact h
  | succ k ih =>
      intro m h
      show (applyTimes (WithKafkaConnection conn) k (WithKafkaConnection conn m)).extraProtocols
        = ",KAFKA"
      apply ih
      rw [extraProtocols_WithKafkaConnection, h]
      decide

theorem withEnvs_env_isSome (ps : List (String × String)) :
    ∀ req : GenericContainerRequest, req.Env.isSome = true →
      ((applyOpts (ps.map (fun p => WithEnv p.1 p.2)) req).Env).isSome = true := by
  induction ps with
  | nil => intro req h; exact h
  | cons p t ih =>
      intro req h
      show ((applyOpts (t.map (fun p => WithEnv p.1 p.2)) ((WithEnv p.1 p.2) req)).Env).isSome
        = true
      exact ih ((WithEnv p.1 p.2) req) rfl

theorem withEnvs_lastVal (ps : List (String × String)) (k : String) :
    ∀ req : GenericContainerRequest,
      envGet (applyOpts (ps.map (fun p => WithEnv p.1 p.2)) req).Env k
        = match lastVal ps k with
          | some v => some v
          | none => envGet req.Env k := by
  induction ps with
  | nil => intro req; rfl
  | cons p t ih =>
      intro req
      show envGet (applyOpts (t.map (fun p => WithEnv p.1 p.2)) ((WithEnv p.1 p.2) req)).Env k
        = match lastVal (p :: t) k with
          | some v => some v
          | none => envGet req.Env k
      rw [ih ((WithEnv p.1 p.2) req)]
      show (match lastVal t k with
          | some v => some v
          | none => envGet ((WithEnv p.1 p.2) req).Env k)
        = match (match lastVal t k with
            | some v => some v
            | none => if p.1 = k then some p.2 else none) with
          | some v => some v
          | none => envGet req.Env k
      cases hl : lastVal t k with
      | some v => rfl
      | none =>
          rw [envGet_WithEnv]
          by_cases hpk : p.1 = k <;> simp [hpk]

/-! ### Claims -/

/-- C1: for every Kafka connection value `c`, once `WithKafkaConnection c` has
been configured on a minion handle, applying the handle's queued options to
the launch request built by `RunContainer` yields an environment binding
`ASYNC_PROTOCOLS` to the accumulated protocol tag string and
`KAFKA_BOOTSTRAP_SERVER` to `c`'s bootstrap-server address; with no Kafka
connection configured (a fresh handle's empty option queue), neither
variable is set. -/
theorem C1_kafka_connection_env (c : kafka.Connection)
    (m : MicrocksAysncMinionContainer) (cont : Container) (microcksHostPort : String) :
    envGet (applyOpts (WithKafkaConnection c m).containerOptions.list
        (defaultRequest microcksHostPort)).Env "ASYNC_PROTOCOLS"
      = some (WithKafkaConnection c m).extraProtocols ∧
    envGet (applyOpts (WithKafkaConnection c m).containerOptions.list
        (defaultRequest microcksHostPort)).Env "KAFKA_BOOTSTRAP_SERVER"
      = some c.BootstrapServers ∧
    envGet (applyOpts (freshMinion cont).containerOptions.list
        (defaultRequest microcksHostPort)).Env "ASYNC_PROTOCOLS" = none ∧
    envGet (applyOpts (freshMinion cont).containerOptions.list
        (defaultRequest microcksHostPort)).Env "KAFKA_BOOTSTRAP_SERVER" = none := by
  refine ⟨?_, ?_, ?_, ?_⟩
  · rw [containerOptions_WithKafkaConnection, applyOpts_append, applyOpts_append,
      extraProtocols_WithKafkaConnection]
    simp only [applyOpts_cons, applyOpts_nil]
    rw [envGet_WithEnv, if_neg (by decide), envGet_WithEnv, if_pos rfl]
  · rw [containerOptions_WithKafkaConnection, applyOpts_append, applyOpts_append]
    simp only [applyOpts_cons, applyOpts_nil]
    rw [envGet_WithEnv, if_pos rfl]
  · show (if "MICROCKS_HOST_PORT" = "ASYNC_PROTOCOLS" then some microcksHostPort
        else assocGet [] "ASYNC_PROTOCOLS") = none
    rw [if_neg (by decide)]
    rfl
  · show (if "MICROCKS_HOST_PORT" = "KAFKA_BOOTSTRAP_SERVER" then some microcksHostPort
        else assocGet [] "KAFKA_BOOTSTRAP_SERVER") = none
    rw [if_neg (by decide)]
    rfl

/-- C2: given a successfully resolved host and mapped port, `WSMockEndpoint`
returns `ws://host:port/api/ws/S/V/O` with spaces of service and version
replaced by `+` and the normalized operation name; in particular it returns
exactly `ws://localhost:49213/api/ws/Pets/v1/subscribe` for host
`localhost`, port `49213`, service `Pets`, version `v1`, operation
`subscribe`, and the URL for service `Order Service`, version `1.0 beta`
contains the segments `Order+Service` and `1.0+beta`. -/
theorem C2_ws_mock_endpoint_format (c : MicrocksAysncMinionContainer)
    (host : String) (port : NatPort) (service version operationName : String)
    (hh : c.Container.Host = Except.ok host)
    (hp : c.Container.MappedPort DefaultHttpPort = Except.ok port) :
    WSMockEndpoint c service version operationName
      = ("ws://" ++ host ++ ":" ++ port.Port ++ "/api/ws/"
          ++ replaceSpaceByPlus service ++ "/" ++ replaceSpaceByPlus version ++ "/"
          ++ (if stringContains operationName " " then
                (goSplitChar ' ' operationName).getD 1 ""
              else operationName),
          none) ∧
    WSMockEndpoint (freshMinion localContainer) "Pets" "v1" "subscribe"
      = ("ws://localhost:49213/api/ws/Pets/v1/subscribe", none) ∧
    stringContains
        (WSMockEndpoint (freshMinion localContainer) "Order Service" "1.0 beta" "subscribe").1
        "/Order+Service/" = true ∧
    stringContains
        (WSMockEndpoint (freshMinion localContainer) "Order Service" "1.0 beta" "subscribe").1
        "/1.0+beta/" = true := by
  refine ⟨?_, by decide, by decide, by decide⟩
  simp [WSMockEndpoint, hh, hp]

/-- C2 witness: the concrete `Pets` endpoint, obtained from the format
theorem with both runtime lookups discharged at a concrete container. -/
theorem C2_ws_mock_endpoint_format_witness :
    WSMockEndpoint (freshMinion localContainer) "Pets" "v1" "subscribe"
      = ("ws://localhost:49213/api/ws/Pets/v1/subscribe", none) :=
  (C2_ws_mock_endpoint_format (freshMinion localContainer) "localhost" ⟨"49213"⟩
    "Pets" "v1" "subscribe" rfl rfl).2.1

/-- C3: when the operation name contains a space, `WSMockEndpoint` uses only
the second space-separated token as the operation string; for
`"POST /orders"` that token is `"/orders"`, so the resulting URL's final
slash-separated segment is `orders` (the verb is stripped). -/
theorem C3_operation_verb_stripping (c : MicrocksAysncMinionContainer)
    (host : String) (port : NatPort) (service version operationName : String)
    (hsp : stringContains operationName " " = true)
    (hh : c.Container.Host = Except.ok host)
    (hp : c.Container.MappedPort DefaultHttpPort = Except.ok port) :
    WSMockEndpoint c service version operationName
      = ("ws://" ++ host ++ ":" ++ port.Port ++ "/api/ws/"
          ++ replaceSpaceByPlus service ++ "/" ++ replaceSpaceByPlus version ++ "/"
          ++ (goSplitChar ' ' operationName).getD 1 "",
          none) ∧
    (goSplitChar ' ' "POST /orders").getD 1 "" = "/orders" ∧
    ((goSplitChar '/'
        (WSMockEndpoint (freshMinion localContainer) "Pets" "v1" "POST /orders").1).getLast?
      = some "orders") := by
  refine ⟨?_, by decide, by decide⟩
  simp [WSMockEndpoint, hh, hp, hsp]

/-- C3 witness: the verb-stripping theorem applied at the concrete
`"POST /orders"` input with all hypotheses discharged. -/
theorem C3_operation_verb_stripping_witness :
    ((goSplitChar '/'
        (WSMockEndpoint (freshMinion localContainer) "Pets" "v1" "POST /orders").1).getLast?
      = some "orders") :=
  (C3_operation_verb_stripping (freshMinion localContainer) "localhost" ⟨"49213"⟩
    "Pets" "v1" "POST /orders" rfl rfl rfl).2.2

/-- C4: applying a sequence of `WithEnv` customizations in order binds each
key to the value of the last call with that key (last writer wins, no
error), with the environment mapping lazily created when absent. -/
theorem C4_with_env_last_writer (ps : List (String × String))
    (req : GenericContainerRequest) (k : String) :
    (envGet (applyOpts (ps.map (fun p => WithEnv p.1 p.2)) req).Env k
      = match lastVal ps k with
        | some v => some v
        | none => envGet req.Env k) ∧
    (req.Env = none → ps ≠ [] →
      ((applyOpts (ps.map (fun p => WithEnv p.1 p.2)) req).Env).isSome = true) := by
  refine ⟨withEnvs_lastVal ps k req, fun _ hne => ?_⟩
  cases ps with
  | nil => exact absurd rfl hne
  | cons p t =>
      show ((applyOpts (t.map (fun p => WithEnv p.1 p.2)) ((WithEnv p.1 p.2) req)).Env).isSome
        = true
      exact withEnvs_env_isSome t ((WithEnv p.1 p.2) req) rfl

/-- C4 witness: a concrete conflicting sequence on one key; the last-set
value wins and the lazily created mapping is present. -/
theorem C4_with_env_last_writer_witness :
    envGet (applyOpts ([("K", "v1"), ("K", "v2")].map (fun p => WithEnv p.1 p.2))
        { Image := "", ExposedPorts := [], WaitingFor := forLog "", Env := none,
          Networks := [], NetworkAliases := none, Started := false }).Env "K"
      = some "v2" ∧
    ((applyOpts ([("K", "v1"), ("K", "v2")].map (fun p => WithEnv p.1 p.2))
        { Image := "", ExposedPorts := [], WaitingFor := forLog "", Env := none,
          Networks := [], NetworkAliases := none, Started := false }).Env).isSome = true := by
  have h := C4_with_env_last_writer [("K", "v1"), ("K", "v2")]
    { Image := "", ExposedPorts := [], WaitingFor := forLog "", Env := none,
      Networks := [], NetworkAliases := none, Started := false } "K"
  exact ⟨h.1.trans (by decide), h.2 rfl (by decide)⟩

/-- C5: starting from a fresh minion handle, any number of applications of
`WithKafkaConnection` leaves at most one occurrence of ",KAFKA" in the
handle's `extraProtocols`, and applying the customization twice equals
applying it once with respect to the protocol tag string. -/
theorem C5_no_duplicate_kafka_tag (conn : kafka.Connection) (cont : Container) (n : Nat) :
    occurrences ",KAFKA".data
        ((applyTimes (WithKafkaConnection conn) n (freshMinion cont)).extraProtocols).data
      ≤ 1 ∧
    ∀ m : MicrocksAysncMinionContainer,
      (WithKafkaConnection conn (WithKafkaConnection conn m)).extraProtocols
        = (WithKafkaConnection conn m).extraProtocols := by
  constructor
  · cases n with
    | zero =>
        show occurrences ",KAFKA".data "".data ≤ 1
        decide
    | succ j =>
        have h : (applyTimes (WithKafkaConnection conn) (j + 1)
            (freshMinion cont)).extraProtocols = ",KAFKA" := by
          show (applyTimes (WithKafkaConnection conn) j
              (WithKafkaConnection conn (freshMinion cont))).extraProtocols = ",KAFKA"
          exact applyTimes_kafka_stable conn j (WithKafkaConnection conn (freshMinion cont)) rfl
        rw [h]
        decide
  · intro m
    simp only [extraProtocols_WithKafkaConnection]
    exact kafkaProtocols_idem m.extraProtocols

/-- C6: two successive `WithNetworkAlias` calls for the same network name
leave the alias list of that network equal to the single-element list
holding the alias of the second call. -/
theorem C6_network_alias_overwrite (req : GenericContainerRequest) (n a1 a2 : String) :
    aliasGet ((WithNetworkAlias n a2) ((WithNetworkAlias n a1) req)).NetworkAliases n
      = some [a2] := by
  simp [WithNetworkAlias, aliasGet, assocGet_assocSet]

/-- C7: `RunContainer` builds a launch request with the fixed default image,
the single exposed port 8081/tcp, a log-line readiness condition, and an
environment holding exactly the `MICROCKS_HOST_PORT` binding, applies the
caller's customizers in order to it, and delegates the start to the
external runtime. -/
theorem C7_run_container_default_request
    (rt : GenericContainerRequest → Except GoError Container)
    (microcksHostPort : String) (opts : List ContainerCustomizer) :
    (defaultRequest microcksHostPort).Image = DefaultImage ∧
    (defaultRequest microcksHostPort).ExposedPorts = [DefaultHttpPort] ∧
    (defaultRequest microcksHostPort).WaitingFor = forLog "Profile prod activated" ∧
    (defaultRequest microcksHostPort).Env
      = some [("MICROCKS_HOST_PORT", microcksHostPort)] ∧
    RunContainer rt microcksHostPort opts
      = (match rt (applyOpts opts (defaultRequest microcksHostPort)) with
        | Except.error err => (none, some err)
        | Except.ok container => (some (freshMinion container), none)) :=
  ⟨rfl, rfl, rfl, rfl, rfl⟩

/-- C8: if the external create-and-start call fails, `RunContainer` returns
a nil handle with that failure unmodified; otherwise it returns a non-nil
handle (the fresh minion wrapping the started container) and a nil error. -/
theorem C8_run_container_error_propagation
    (rt : GenericContainerRequest → Except GoError Container)
    (microcksHostPort : String) (opts : List ContainerCustomizer) :
    (∀ e, rt (applyOpts opts (defaultRequest microcksHostPort)) = Except.error e →
      RunContainer rt microcksHostPort opts = (none, some e)) ∧
    (∀ cont, rt (applyOpts opts (defaultRequest microcksHostPort)) = Except.ok cont →
      RunContainer rt microcksHostPort opts = (some (freshMinion cont), none)) := by
  have hrw : RunContainer rt microcksHostPort opts
      = (match rt (applyOpts opts (defaultRequest microcksHostPort)) with
        | Except.error err => (none, some err)
        | Except.ok container => (some (freshMinion container), none)) := rfl
  refine ⟨fun e h => ?_, fun cont h => ?_⟩
  · rw [hrw, h]
  · rw [hrw, h]

/-- C8 witness: a runtime whose start call fails with a concrete error; the
failure is surfaced unmodified next to a nil handle. -/
theorem C8_run_container_error_propagation_witness :
    RunContainer (fun _ => Except.error "start failure") "localhost:8080" []
      = (none, some "start failure") :=
  (C8_run_container_error_propagation (fun _ => Except.error "start failure")
    "localhost:8080" []).1 "start failure" rfl

/-- C9: `WSMockEndpoint` fails exactly when the host or mapped-port lookup
fails, returning the empty string with that error verbatim, and raises no
validation error of its own: empty service, version, and operation names
are interpolated as-is. -/
theorem C9_ws_mock_endpoint_errors (c : MicrocksAysncMinionContainer)
    (service version operationName : String) :
    (∀ e, c.Container.Host = Except.error e →
      WSMockEndpoint c service version operationName = ("", some e)) ∧
    (∀ h e, c.Container.Host = Except.ok h →
      c.Container.MappedPort DefaultHttpPort = Except.error e →
      WSMockEndpoint c service version operationName = ("", some e)) ∧
    (∀ h p, c.Container.Host = Except.ok h →
      c.Container.MappedPort DefaultHttpPort = Except.ok p →
      (WSMockEndpoint c service version operationName).2 = none) ∧
    WSMockEndpoint (freshMinion localContainer) "" "" ""
      = ("ws://localhost:49213/api/ws///", none) := by
  refine ⟨fun e he => ?_, fun h e hh he => ?_, fun h p hh hp => ?_, by decide⟩
  · simp [WSMockEndpoint, he]
  · simp [WSMockEndpoint, hh, he]
  · simp [WSMockEndpoint, hh, hp]

/-- C9 witness: a container whose host lookup fails with a concrete error;
the endpoint returns the empty string and that error verbatim. -/
theorem C9_ws_mock_endpoint_errors_witness :
    WSMockEndpoint ⟨⟨Except.error "host lookup failed", fun _ => Except.error "no port"⟩,
        "", ⟨[]⟩⟩ "Pets" "v1" "subscribe"
      = ("", some "host lookup failed") :=
  (C9_ws_mock_endpoint_errors
    ⟨⟨Except.error "host lookup failed", fun _ => Except.error "no port"⟩, "", ⟨[]⟩⟩
    "Pets" "v1" "subscribe").1 "host lookup failed" rfl

/-- C10: the first `WithKafkaConnection` on a fresh minion handle sets the
protocol tag string to exactly ",KAFKA" — with a leading comma — and that
same leading-comma string is the value the queued options bind to
`ASYNC_PROTOCOLS`. -/
theorem C10_leading_comma_protocol_tag (conn : kafka.Connection) (cont : Container)
    (req : GenericContainerRequest) :
    (WithKafkaConnection conn (freshMinion cont)).extraProtocols = ",KAFKA" ∧
    ((WithKafkaConnection conn (freshMinion cont)).extraProtocols).data.head? = some ',' ∧
    envGet (applyOpts (WithKafkaConnection conn (freshMinion cont)).containerOptions.list
        req).Env "ASYNC_PROTOCOLS" = some ",KAFKA" := by
  refine ⟨rfl, rfl, ?_⟩
  rw [containerOptions_WithKafkaConnection conn (freshMinion cont), applyOpts_append,
    applyOpts_append]
  simp only [applyOpts_cons, applyOpts_nil]
  rw [envGet_WithEnv, if_neg (by decide), envGet_WithEnv, if_pos rfl]
  rfl

end MicrocksAsync
